import Mathlib

/-!
Verification of the name-availability aggregation engine and discovery loop of
the project-name-generator CLI.  Definitions are shallow embeddings of the
TypeScript source: pure computations become Lean functions, each network fetch
becomes an explicit environment value describing its outcome, the process-wide
rate-limit flag of the GitHub checker becomes explicit state passing, and
JavaScript try/catch becomes handling of an `Except`-shaped outcome.
-/

namespace ProjectNameGen

/-- One sub-probe outcome inside the github-org variant prober
(`VariantResult` in src/types.ts). -/
structure VariantResult where
  variant : String
  available : Bool
  url : Option String := none
deriving Repr, DecidableEq

/-- Result of one availability probe (`CheckResult` in src/types.ts).
Optional JavaScript fields are modelled as `Option`. -/
structure CheckResult where
  name : String
  platform : String
  available : Bool
  url : Option String := none
  error : Option String := none
  count : Option Nat := none
  activeCount : Option Nat := none
  variants : Option (List VariantResult) := none
deriving Repr, DecidableEq

/-- Checker categories (`Checker.category` in src/types.ts). -/
inductive Category
  | package
  | repository
  | domain
  | trademark
  | uniqueness
deriving Repr, DecidableEq

/-- The checker registry `allCheckers` (src/checkers/index.ts), as the list of
each registered checker name (the `platform` string it stamps on every result
it produces, including its error results) paired with its category, in
registration order. -/
def allCheckers : List (String × Category) :=
  [("npm", .package), ("npm-org", .package), ("pypi", .package),
   ("crates.io", .package), ("nuget", .package), ("go", .package),
   ("packagist", .package), ("homebrew", .package), ("nixpkgs", .package),
   ("github", .repository), ("github-org", .repository),
   ("gitlab", .repository),
   ("domain-dev", .domain),
   ("github-uniqueness", .uniqueness),
   ("uspto", .trademark), ("google-software", .trademark),
   ("google-opensource", .trademark), ("fossmarks", .trademark)]

/-- Category of the registered checker that stamps a given platform string on
its results (lookup in the registry). -/
def categoryOf (platform : String) : Option Category :=
  (allCheckers.find? (fun c => c.1 == platform)).map (fun c => c.2)

/-- Shared error-result constructor `createErrorResult` (src/checkers/base.ts):
an unavailable result carrying the error message, with no url. -/
def createErrorResult (platform name error : String) : CheckResult :=
  { name := name, platform := platform, available := false, error := some error }

/-- The tally loop of `quickCheck` (src/find.ts): for each probe result it
skips the `github-uniqueness` platform, otherwise increments the denominator
`total` and additionally the numerator `available` when the result is
available with a falsy error.  The for-loop only adds independent unit
increments to the two counters, so accumulation order is immaterial and it is
modelled by structural recursion.  Returns (available, total). -/
def quickCheckCounts : List CheckResult → Nat × Nat
  | [] => (0, 0)
  | r :: rest =>
    let acc := quickCheckCounts rest
    if r.platform == "github-uniqueness" then acc
    else (acc.1 + (if r.available && r.error.isNone then 1 else 0), acc.2 + 1)

/-- The classification loop of `checkName` (src/cli.ts): skip
`github-uniqueness` results, then bucket each result as manualCheck (error and
url both set), errors (error set, no url), available (no error, available
true) or unavailable (otherwise).  Returns
(available, unavailable, errors, manualCheck). -/
def classifyCounts : List CheckResult → Nat × Nat × Nat × Nat
  | [] => (0, 0, 0, 0)
  | r :: rest =>
    let acc := classifyCounts rest
    if r.platform == "github-uniqueness" then acc
    else if r.error.isSome && r.url.isSome then
      (acc.1, acc.2.1, acc.2.2.1, acc.2.2.2 + 1)
    else if r.error.isSome then
      (acc.1, acc.2.1, acc.2.2.1 + 1, acc.2.2.2)
    else if r.available then
      (acc.1 + 1, acc.2.1, acc.2.2.1, acc.2.2.2)
    else
      (acc.1, acc.2.1 + 1, acc.2.2.1, acc.2.2.2)

/-- `nonUniquenessCount` of `checkName` (src/cli.ts): the number of results
whose platform is not `github-uniqueness`; used as `summary.total`. -/
def nonUniquenessCount (results : List CheckResult) : Nat :=
  (results.filter (fun r => !(r.platform == "github-uniqueness"))).length

/-- The summary object built by `checkName` (src/cli.ts). -/
structure Summary where
  total : Nat
  available : Nat
  unavailable : Nat
  errors : Nat
  manualCheck : Nat
deriving Repr, DecidableEq

/-- The summary computation of `checkName` (src/cli.ts): bucket counts from
the classification loop, with `total` the non-uniqueness result count. -/
def checkNameSummary (results : List CheckResult) : Summary :=
  { total := nonUniquenessCount results
    available := (classifyCounts results).1
    unavailable := (classifyCounts results).2.1
    errors := (classifyCounts results).2.2.1
    manualCheck := (classifyCounts results).2.2.2 }

/-- The availability figure computed in `findNames` (src/find.ts):
`total > 0 ? available / total : 0`.  The unguarded JavaScript division is
modelled as `Option`, `none` standing for the division-by-zero evaluation the
ternary guard must avoid; rationals stand for JS numbers. -/
def jsDiv (a t : Nat) : Option ℚ :=
  if t = 0 then none else some ((a : ℚ) / (t : ℚ))

/-- The guarded ternary expression itself. -/
def availability (a t : Nat) : Option ℚ :=
  if 0 < t then jsDiv a t else some 0

/-- JS `encodeURIComponent`, abstracted as the identity: every claim settled
here depends only on which URL strings are present, never on their escaping. -/
def encodeURIComponent (s : String) : String := s

/-- The `uspto` trademark checker (src/checkers/trademark.ts): a pure result
pointing at a manual TESS search. -/
def usptoCheck (name : String) : CheckResult :=
  { name := name, platform := "uspto", available := true,
    url := some ("https://tmsearch.uspto.gov/bin/showfield?f=toc&state=4809%3Anknlo5.1.1&p_search=searchss&p_L=50&BackReference=&p_plural=yes&p_s_PARA1=&p_taession=&p_PARA1=" ++ encodeURIComponent name ++ "&p_PARA2=live&p_op_ALL=AND&a_default=search&a_search=Submit+Query"),
    error := some "Manual check required - click URL to search USPTO TESS" }

/-- The `google-software` trademark checker (src/checkers/trademark.ts). -/
def googleSoftwareCheck (name : String) : CheckResult :=
  { name := name, platform := "google-software", available := true,
    url := some ("https://www.google.com/search?q=" ++ encodeURIComponent ("\"" ++ name ++ "\" software")),
    error := some "Manual check required - click URL to search Google" }

/-- The `google-opensource` trademark checker (src/checkers/trademark.ts). -/
def googleOpenSourceCheck (name : String) : CheckResult :=
  { name := name, platform := "google-opensource", available := true,
    url := some ("https://www.google.com/search?q=" ++ encodeURIComponent ("\"" ++ name ++ "\" open source")),
    error := some "Manual check required - click URL to search Google" }

/-- The `fossmarks` trademark checker (src/checkers/trademark.ts). -/
def fossmarksCheck (name : String) : CheckResult :=
  { name := name, platform := "fossmarks", available := true,
    url := some "https://fossmarks.org/",
    error := some "Reference resource - review FOSS trademark guidance" }

/-- Helper: the four classification buckets always partition the
non-uniqueness results. -/
theorem classifyCounts_partition (results : List CheckResult) :
    (classifyCounts results).1 + (classifyCounts results).2.1 +
      (classifyCounts results).2.2.1 + (classifyCounts results).2.2.2 =
      nonUniquenessCount results := by
  induction results with
  | nil => rfl
  | cons r rest ih =>
    simp only [nonUniquenessCount] at ih ⊢
    simp only [classifyCounts, List.filter_cons]
    rcases hc : classifyCounts rest with ⟨a, b, c, d⟩
    rw [hc] at ih
    dsimp only at ih ⊢
    cases hb : (r.platform == "github-uniqueness") with
    | true => simpa [hb] using ih
    | false =>
      simp only [hb, Bool.false_eq_true, if_false, Bool.not_false, if_true,
        List.length_cons]
      split_ifs <;> dsimp only <;> omega

/-- Helper: in the concrete registry, a checker has category uniqueness
exactly when its name is the `github-uniqueness` platform string. -/
theorem registry_uniqueness_is_github (p : String)
    (h : p ∈ allCheckers.map Prod.fst) :
    (p == "github-uniqueness") = (categoryOf p == some Category.uniqueness) := by
  simp only [allCheckers, List.map, List.mem_cons, List.not_mem_nil, or_false] at h
  rcases h with rfl | rfl | rfl | rfl | rfl | rfl | rfl | rfl | rfl | rfl |
    rfl | rfl | rfl | rfl | rfl | rfl | rfl | rfl <;> decide

/-- A concrete mixed result list: a taken pypi result, a manual-check uspto
result, a rate-limited gitlab error result and a uniqueness-signal result. -/
def sampleResults : List CheckResult :=
  [{ name := "foo", platform := "pypi", available := false,
     url := some "https://pypi.org/project/foo/" },
   usptoCheck "foo",
   createErrorResult "gitlab" "foo" "Rate limited by GitLab",
   { name := "foo", platform := "github-uniqueness", available := true,
     count := some 3, activeCount := some 1,
     url := some "https://github.com/search?q=foo" }]

/-- C1: in every aggregation summary the counts partition, with the taken
count the `unavailable` bucket and the error count the results carrying a
non-null error (the `errors` and `manualCheck` buckets together); and `total`
excludes exactly the results of uniqueness-category checkers of the registry,
not merely a fixed platform string: for results stamped by registered
checkers, filtering out the platform `github-uniqueness` coincides with
filtering out by category. -/
theorem checkName_partition_excludes_uniqueness (results : List CheckResult)
    (h : ∀ r ∈ results, r.platform ∈ allCheckers.map Prod.fst) :
    (checkNameSummary results).available + (checkNameSummary results).unavailable +
      ((checkNameSummary results).errors + (checkNameSummary results).manualCheck) =
      (checkNameSummary results).total ∧
    (checkNameSummary results).total =
      (results.filter
        (fun r => !(categoryOf r.platform == some Category.uniqueness))).length := by
  constructor
  · have hp := classifyCounts_partition results
    simp only [checkNameSummary]
    omega
  · simp only [checkNameSummary, nonUniquenessCount]
    congr 1
    apply List.filter_congr
    intro r hr
    rw [registry_uniqueness_is_github r.platform (h r hr)]

/-- Witness for C1 at the concrete sample list. -/
theorem checkName_partition_excludes_uniqueness_witness :
    (∀ r ∈ sampleResults, r.platform ∈ allCheckers.map Prod.fst) ∧
    ((checkNameSummary sampleResults).available +
        (checkNameSummary sampleResults).unavailable +
        ((checkNameSummary sampleResults).errors +
          (checkNameSummary sampleResults).manualCheck) =
        (checkNameSummary sampleResults).total ∧
      (checkNameSummary sampleResults).total =
        (sampleResults.filter
          (fun r => !(categoryOf r.platform == some Category.uniqueness))).length) :=
  ⟨by decide, checkName_partition_excludes_uniqueness sampleResults (by decide)⟩

/-- C2 counterexample: a probe result with a non-null error still enters the
denominator of the quickCheck tally from which the availability figure is
computed: with a single rate-limited gitlab error result the denominator
`total` is 1, not 0, so the error result was not excluded from the binary
tally as the claim states. -/
theorem quickCheck_error_enters_denominator :
    (createErrorResult "gitlab" "foo" "Rate limited by GitLab").error.isSome = true ∧
    ¬((quickCheckCounts
        [createErrorResult "gitlab" "foo" "Rate limited by GitLab"]).2 = 0) ∧
    (quickCheckCounts
        [createErrorResult "gitlab" "foo" "Rate limited by GitLab"]).2 = 1 := by
  decide

/-- C2 (amended): a result with non-null error is never counted as available
by quickCheck (the numerator is unchanged) and never enters the available or
unavailable buckets of the check summary; however, when its platform is not
`github-uniqueness`, it still increments the quickCheck denominator `total`
used for the availability figure. -/
theorem error_result_not_available_or_taken (r : CheckResult)
    (rest : List CheckResult) (h : r.error.isSome = true) :
    (quickCheckCounts (r :: rest)).1 = (quickCheckCounts rest).1 ∧
    (checkNameSummary (r :: rest)).available = (checkNameSummary rest).available ∧
    (checkNameSummary (r :: rest)).unavailable = (checkNameSummary rest).unavailable ∧
    ((r.platform == "github-uniqueness") = false →
      (quickCheckCounts (r :: rest)).2 = (quickCheckCounts rest).2 + 1) := by
  have hn : r.error.isNone = false := by
    cases he : r.error <;> simp_all
  refine ⟨?_, ?_, ?_, ?_⟩
  · simp only [quickCheckCounts]
    cases hb : (r.platform == "github-uniqueness") <;> simp [hb, hn]
  · simp only [checkNameSummary, classifyCounts]
    cases hb : (r.platform == "github-uniqueness") <;>
      cases hu : r.url.isSome <;> simp [hb, h, hu]
  · simp only [checkNameSummary, classifyCounts]
    cases hb : (r.platform == "github-uniqueness") <;>
      cases hu : r.url.isSome <;> simp [hb, h, hu]
  · intro hb
    simp [quickCheckCounts, hb]

/-- Witness for the amended C2 at a concrete error result. -/
theorem error_result_not_available_or_taken_witness :
    (quickCheckCounts [createErrorResult "pypi" "foo" "Network error"]).1 =
      (quickCheckCounts ([] : List CheckResult)).1 :=
  (error_result_not_available_or_taken
    (createErrorResult "pypi" "foo" "Network error") [] (by decide)).1

/-- C3: for every list of probe results, the availability figure of the find
loop is produced without evaluating the division-by-zero branch (the guarded
ternary always yields a value), and it equals available/total exactly when
total is positive and 0 exactly when total is 0. -/
theorem availability_exact (results : List CheckResult) :
    ∃ q : ℚ,
      availability (quickCheckCounts results).1 (quickCheckCounts results).2 =
        some q ∧
      (0 < (quickCheckCounts results).2 →
        q = ((quickCheckCounts results).1 : ℚ) /
          ((quickCheckCounts results).2 : ℚ)) ∧
      ((quickCheckCounts results).2 = 0 → q = 0) := by
  by_cases ht : (quickCheckCounts results).2 = 0
  · exact ⟨0, by simp [availability, ht], fun hpos => absurd ht (by omega),
      fun _ => rfl⟩
  · refine ⟨((quickCheckCounts results).1 : ℚ) / ((quickCheckCounts results).2 : ℚ),
      ?_, fun _ => rfl, fun h0 => absurd h0 ht⟩
    simp [availability, jsDiv, ht, Nat.pos_of_ne_zero ht]

/-- C10: every non-uniqueness result lands in exactly one of the four summary
buckets, characterised by its error and url fields exactly as the source
branches; the buckets partition `total`; and the partition is well-founded
because `createErrorResult` never sets a url while every trademark checker
always returns both an error message and a url. -/
theorem check_summary_four_buckets (results : List CheckResult)
    (r : CheckResult) (hr : (r.platform == "github-uniqueness") = false) :
    ((checkNameSummary results).available + (checkNameSummary results).unavailable +
      (checkNameSummary results).errors + (checkNameSummary results).manualCheck =
      (checkNameSummary results).total) ∧
    ((checkNameSummary [r]).manualCheck = 1 ↔ r.error.isSome ∧ r.url.isSome) ∧
    ((checkNameSummary [r]).errors = 1 ↔ r.error.isSome ∧ r.url.isNone) ∧
    ((checkNameSummary [r]).available = 1 ↔ r.error.isNone ∧ r.available = true) ∧
    ((checkNameSummary [r]).unavailable = 1 ↔ r.error.isNone ∧ r.available = false) ∧
    (∀ p n e, (createErrorResult p n e).url = none ∧
      (createErrorResult p n e).error.isSome = true) ∧
    (∀ n, (usptoCheck n).error.isSome = true ∧ (usptoCheck n).url.isSome = true) ∧
    (∀ n, (googleSoftwareCheck n).error.isSome = true ∧
      (googleSoftwareCheck n).url.isSome = true) ∧
    (∀ n, (googleOpenSourceCheck n).error.isSome = true ∧
      (googleOpenSourceCheck n).url.isSome = true) ∧
    (∀ n, (fossmarksCheck n).error.isSome = true ∧
      (fossmarksCheck n).url.isSome = true) := by
  refine ⟨?_, ?_, ?_, ?_, ?_, ?_, ?_, ?_, ?_, ?_⟩
  · have hp := classifyCounts_partition results
    simp only [checkNameSummary]
    omega
  all_goals try
    (simp only [checkNameSummary, classifyCounts, nonUniquenessCount];
      rcases he : r.error with _ | e <;> rcases hu : r.url with _ | u <;>
        cases ha : r.available <;> simp_all [hr])
  · intro p n e
    simp [createErrorResult]
  · intro n; simp [usptoCheck]
  · intro n; simp [googleSoftwareCheck]
  · intro n; simp [googleOpenSourceCheck]
  · intro n; simp [fossmarksCheck]

/-- Witness for C10 at a concrete trademark result. -/
theorem check_summary_four_buckets_witness :
    ((usptoCheck "foo").platform == "github-uniqueness") = false ∧
    ((checkNameSummary [usptoCheck "foo"]).manualCheck = 1 ↔
      (usptoCheck "foo").error.isSome ∧ (usptoCheck "foo").url.isSome) :=
  ⟨by decide, (check_summary_four_buckets [] (usptoCheck "foo") (by decide)).2.1⟩

/-- An item of a GitHub repository search response. -/
structure SearchItem where
  name : String
  stargazersCount : Nat
  htmlUrl : String
deriving Repr, DecidableEq

/-- The process-wide rate-limit state of the github checker: the module-level
variables `usePublicApiOnly` and `rateLimitResetTime` of
src/checkers/github.ts.  Times are in milliseconds. -/
structure GhState where
  usePublicApiOnly : Bool
  rateLimitResetTime : Nat
deriving Repr, DecidableEq

/-- `shouldUsePublicApi` (src/checkers/github.ts): clears the flag when now
is strictly past the reset time, then returns the (possibly updated) flag
together with the updated module state. -/
def shouldUsePublicApi (st : GhState) (now : Nat) : Bool × GhState :=
  if st.usePublicApiOnly && decide (st.rateLimitResetTime < now) then
    (false, { st with usePublicApiOnly := false })
  else
    (st.usePublicApiOnly, st)

/-- `markRateLimited` (src/checkers/github.ts): sets the flag and records the
resume time, defaulting to one hour (3600000 ms) after now when no reset time
is supplied (the checker always calls it with no argument). -/
def markRateLimited (now : Nat) (resetTime : Option Nat) : GhState :=
  { usePublicApiOnly := true,
    rateLimitResetTime := resetTime.getD (now + 3600000) }

/-- Outcome of the single fetch inside `checkRepoExistsPublic`: the request
throws, returns a non-OK response with some status, or returns OK with the
parsed search items. -/
inductive RepoFetch
  | thrown (msg : String)
  | notOk (status : Nat)
  | okItems (items : List SearchItem)
deriving Repr, DecidableEq

/-- `checkRepoExistsPublic` (src/checkers/github.ts): public search for an
exact-name repository with more than 10 stars; a thrown fetch or a non-OK
response (rate-limit statuses included, since only `response.ok` is read) is
treated optimistically as available.  Returns (available, url). -/
def checkRepoExistsPublic (f : RepoFetch) (name : String) : Bool × Option String :=
  match f with
  | .thrown _ => (true, none)
  | .notOk _ => (true, none)
  | .okItems items =>
    match items.find? (fun item =>
        item.name.toLower == name.toLower &&
          decide (10 < item.stargazersCount)) with
    | some m => (false, some m.htmlUrl)
    | none => (true, none)

/-- Outcome of the authenticated octokit search request in the github
checker: success with the parsed item list, or a thrown request error
carrying an optional HTTP status on the error object. -/
inductive PrimaryFetch
  | ok (items : List SearchItem)
  | exn (status : Option Nat) (msg : String)
deriving Repr, DecidableEq

/-- The `existsUrl` computed on the authenticated path of
`githubChecker.check`: filter for exact-name matches with more than 10 stars,
sort by stars descending, take the url of the first item if any. -/
def githubPrimaryUrl (items : List SearchItem) (name : String) : Option String :=
  ((((items.filter (fun item =>
      item.name.toLower == name.toLower &&
        decide (10 < item.stargazersCount))).mergeSort
      (fun a b => decide (b.stargazersCount ≤ a.stargazersCount))).head?).map
    (fun r => r.htmlUrl))

/-- Environment for one call of the github checker: whether a token is
configured, the outcome the authenticated request would have, and the outcome
the public search would have. -/
structure GhEnv where
  token : Bool
  primary : PrimaryFetch
  publicRepo : RepoFetch
deriving Repr, DecidableEq

/-- The path a github checker call takes after consulting the rate-limit
flag: the reduced public (degraded) path, or the authenticated primary
path. -/
inductive GhPath
  | publicApi
  | primaryApi
deriving Repr, DecidableEq

/-- The result built from the public path inside `githubChecker.check`: note
it carries no error field. -/
def githubPublicResult (env : GhEnv) (name : String) : CheckResult :=
  let r := checkRepoExistsPublic env.publicRepo name
  { name := name, platform := "github", available := r.1, url := r.2 }

/-- `githubChecker.check` (src/checkers/github.ts): consults the rate-limit
flag (public path while degraded), uses the public path when no token is
configured, and otherwise issues the authenticated search — marking the rate
limit and falling back to the public path when the request throws with status
403 or 429, and producing an error result on any other thrown error.
Returns the result, the updated process-wide state, and the path taken. -/
def githubCheck (st : GhState) (now : Nat) (env : GhEnv) (name : String) :
    CheckResult × GhState × GhPath :=
  let su := shouldUsePublicApi st now
  if su.1 then
    (githubPublicResult env name, su.2, .publicApi)
  else if !env.token then
    (githubPublicResult env name, su.2, .publicApi)
  else
    match env.primary with
    | .ok items =>
      let existsUrl := githubPrimaryUrl items name
      ({ name := name, platform := "github", available := existsUrl.isNone,
         url := existsUrl }, su.2, .primaryApi)
    | .exn status msg =>
      if status == some 403 || status == some 429 then
        (githubPublicResult env name, markRateLimited now none, .primaryApi)
      else
        (createErrorResult "github" name msg, su.2, .primaryApi)

/-- A fixed environment with a token, used to exercise the state machine at
concrete points. -/
def ghTokenEnv : GhEnv :=
  { token := true, primary := .ok [], publicRepo := .notOk 403 }

/-- C5 counterexample: after a rate limit recorded at time 0 the resume time
is 3600000; a call made exactly at the resume time (now equal to, hence at or
past, the resume time per the claim) still takes the degraded public path
rather than transitioning back to the primary path: the source clears the
flag only strictly past the reset time. -/
theorem github_resume_boundary_still_degraded :
    (markRateLimited 0 none).rateLimitResetTime = 3600000 ∧
    (githubCheck (markRateLimited 0 none) 3600000 ghTokenEnv "foo").2.2 =
      GhPath.publicApi ∧
    (githubCheck (markRateLimited 0 none) 3600000 ghTokenEnv
        "foo").2.1.usePublicApiOnly = true := by
  decide

/-- C5 (amended): marking a rate limit at t0 degrades the state with resume
time t0 + 3600000; while degraded, every call at or before the resume time
takes the public path and leaves the state unchanged (still degraded), and
the first call strictly past the resume time takes the primary
(authenticated) path again. -/
theorem github_rate_limit_cooldown (st : GhState) (now t0 : Nat) (env : GhEnv)
    (name : String) (hdeg : st.usePublicApiOnly = true)
    (htok : env.token = true) :
    ((markRateLimited t0 none).usePublicApiOnly = true ∧
      (markRateLimited t0 none).rateLimitResetTime = t0 + 3600000) ∧
    (now ≤ st.rateLimitResetTime →
      (githubCheck st now env name).2.2 = GhPath.publicApi ∧
      (githubCheck st now env name).2.1 = st) ∧
    (st.rateLimitResetTime < now →
      (githubCheck st now env name).2.2 = GhPath.primaryApi) := by
  refine ⟨⟨rfl, rfl⟩, ?_, ?_⟩
  · intro hle
    have hlt : ¬(st.rateLimitResetTime < now) := by omega
    simp [githubCheck, shouldUsePublicApi, hdeg, hlt]
  · intro hlt
    rcases henv : env.primary with items | ⟨status, msg⟩ <;>
      simp [githubCheck, shouldUsePublicApi, hdeg, hlt, htok, henv, apply_ite,
        ite_self]

/-- Witness for the amended C5: a degraded call inside the cooldown window
stays on the public path with the state unchanged. -/
theorem github_rate_limit_cooldown_witness :
    (githubCheck (markRateLimited 0 none) 10 ghTokenEnv "foo").2.2 =
      GhPath.publicApi ∧
    (githubCheck (markRateLimited 0 none) 10 ghTokenEnv "foo").2.1 =
      markRateLimited 0 none :=
  (github_rate_limit_cooldown (markRateLimited 0 none) 10 0 ghTokenEnv "foo"
    (by decide) (by decide)).2.1 (by decide)

/-- Outcome of the org lookup fetch inside `checkOrgExistsPublic`: thrown,
HTTP 404, OK with the org html url, or any other (non-OK, non-404) status. -/
inductive OrgFetch
  | thrown
  | status404
  | okOrg (htmlUrl : String)
  | otherStatus (status : Nat)
deriving Repr, DecidableEq

/-- Outcome of the user lookup fetch inside `checkUserExistsPublic`. -/
inductive UserFetch
  | thrown
  | status404
  | okUser (htmlUrl : String)
  | otherStatus (status : Nat)
deriving Repr, DecidableEq

/-- `checkUserExistsPublic` (src/checkers/github.ts): 404 means the username
is free; OK means taken; anything else (and a thrown fetch) is optimistic
available. -/
def checkUserExistsPublic (f : UserFetch) : Bool × Option String :=
  match f with
  | .thrown => (true, none)
  | .status404 => (true, none)
  | .okUser u => (false, some u)
  | .otherStatus _ => (true, none)

/-- `checkOrgExistsPublic` (src/checkers/github.ts): on 404 the org namespace
is free but the shared user namespace is probed before concluding; OK means
taken; rate-limit statuses (403/429) and every other status, as well as a
thrown fetch, are optimistic available.  The branch on 403/429 mirrors the
two distinct source returns that both yield the optimistic result. -/
def checkOrgExistsPublic (orgF : OrgFetch) (userF : UserFetch) :
    Bool × Option String :=
  match orgF with
  | .thrown => (true, none)
  | .status404 => checkUserExistsPublic userF
  | .okOrg u => (false, some u)
  | .otherStatus s =>
    if s == 403 || s == 429 then (true, none) else (true, none)

/-- C6: while the github checker is degraded (flag set, now at or before the
resume time), a failure of the public path itself — thrown network error or
non-OK response, rate-limit statuses included — yields available = true with
a null error field: never reported as taken and never as an error; and the
org-variant public helper likewise maps its own thrown errors and non-OK
non-404 statuses to available = true. -/
theorem github_degraded_failures_optimistic (st : GhState) (now : Nat)
    (env : GhEnv) (name : String)
    (hdeg : st.usePublicApiOnly = true) (hin : now ≤ st.rateLimitResetTime)
    (hfail : (∃ m, env.publicRepo = RepoFetch.thrown m) ∨
      ∃ s, env.publicRepo = RepoFetch.notOk s) :
    ((githubCheck st now env name).1.available = true ∧
      (githubCheck st now env name).1.error = none) ∧
    (∀ userF, checkOrgExistsPublic OrgFetch.thrown userF = (true, none)) ∧
    (∀ s userF, checkOrgExistsPublic (OrgFetch.otherStatus s) userF =
      (true, none)) := by
  have hlt : ¬(st.rateLimitResetTime < now) := by omega
  refine ⟨?_, fun userF => rfl, fun s userF => ?_⟩
  · have hpub : checkRepoExistsPublic env.publicRepo name = (true, none) := by
      rcases hfail with ⟨m, hm⟩ | ⟨s, hs⟩
      · simp [checkRepoExistsPublic, hm]
      · simp [checkRepoExistsPublic, hs]
    simp [githubCheck, shouldUsePublicApi, hdeg, hlt, githubPublicResult, hpub]
  · simp only [checkOrgExistsPublic]
    split_ifs <;> rfl

/-- Witness for C6: a degraded call whose public search is rate limited
(HTTP 403, non-OK) comes back optimistic available with no error. -/
theorem github_degraded_failures_optimistic_witness :
    (githubCheck (markRateLimited 0 none) 5 ghTokenEnv "foo").1.available =
      true ∧
    (githubCheck (markRateLimited 0 none) 5 ghTokenEnv "foo").1.error = none :=
  (github_degraded_failures_optimistic (markRateLimited 0 none) 5 ghTokenEnv
    "foo" (by decide) (by decide) (Or.inr ⟨403, rfl⟩)).1

/-- The fixed variant suffix list `ORG_VARIANT_SUFFIXES`
(src/checkers/github.ts), in order, starting with the empty suffix for the
base name. -/
def ORG_VARIANT_SUFFIXES : List String :=
  ["", "-dev", "dev", "-org", "org", "-hq", "hq", "-io", "io", "-app", "app",
   "-labs", "labs", "-oss"]

/-- One variant sub-query of the github-org prober: the public org existence
check on name ++ suffix, packaged as a `VariantResult`.  The environment maps
each variant name to the outcomes of its org and user fetches. -/
def orgVariantStep (env : String → OrgFetch × UserFetch) (name suffix : String) :
    VariantResult :=
  let variantName := name ++ suffix
  let r := checkOrgExistsPublic (env variantName).1 (env variantName).2
  { variant := variantName, available := r.1, url := r.2 }

/-- The batch loop of `githubOrgChecker.check` (src/checkers/github.ts):
process the suffix list in concurrency batches of size 3 (take 3, recurse on
drop 3), concatenating the batch results in order; the inter-batch delay has
no effect on the value computed. -/
def orgBatchLoop (env : String → OrgFetch × UserFetch) (name : String) :
    List String → List VariantResult
  | [] => []
  | s :: rest =>
    ((s :: rest).take 3).map (orgVariantStep env name) ++
      orgBatchLoop env name ((s :: rest).drop 3)
termination_by l => l.length
decreasing_by simp [List.length_drop]; omega

/-- Helper: the batch loop computes exactly the per-suffix map, one sub-query
per suffix in order. -/
theorem orgBatchLoop_eq_map (env : String → OrgFetch × UserFetch)
    (name : String) (l : List String) :
    orgBatchLoop env name l = l.map (orgVariantStep env name) := by
  have H : ∀ n (l : List String), l.length ≤ n →
      orgBatchLoop env name l = l.map (orgVariantStep env name) := by
    intro n
    induction n with
    | zero =>
      intro l hl
      have hnil : l = [] := List.eq_nil_of_length_eq_zero (Nat.le_zero.mp hl)
      subst hnil
      simp [orgBatchLoop]
    | succ n ih =>
      intro l hl
      match l with
      | [] => simp [orgBatchLoop]
      | s :: rest =>
        rw [orgBatchLoop]
        have hlen : ((s :: rest).drop 3).length ≤ n := by
          simp only [List.length_drop, List.length_cons]
          simp only [List.length_cons] at hl
          omega
        rw [ih _ hlen, ← List.map_append, List.take_append_drop]
  exact H l.length l le_rfl

/-- All variant sub-results of one github-org check. -/
def orgAllResults (env : String → OrgFetch × UserFetch) (name : String) :
    List VariantResult :=
  orgBatchLoop env name ORG_VARIANT_SUFFIXES

/-- `githubOrgChecker.check` (src/checkers/github.ts): fold the variant
sub-results: available iff some variant is available, the variants field
holds exactly the available ones, and the url is the first sub-result url
when none is available (the source indexes allResults[0], always present
since the suffix list is non-empty; modelled totally via head?). -/
def githubOrgCheck (env : String → OrgFetch × UserFetch) (name : String) :
    CheckResult :=
  let allResults := orgAllResults env name
  let availableVariants := allResults.filter (fun r => r.available)
  let hasAvailableVariant := decide (0 < availableVariants.length)
  { name := name, platform := "github-org", available := hasAvailableVariant,
    url := if hasAvailableVariant then none
           else allResults.head?.elim none (fun r => r.url),
    variants := some availableVariants }

/-- C7: the github-org variant prober issues exactly one sub-query per suffix
of its fixed list (K = 14 suffixes, the empty suffix included), its overall
result is available iff at least one variant sub-result is available, and the
returned variants list is exactly the available sub-results. -/
theorem githubOrg_variant_prober (env : String → OrgFetch × UserFetch)
    (name : String) :
    orgAllResults env name =
      ORG_VARIANT_SUFFIXES.map (orgVariantStep env name) ∧
    (orgAllResults env name).length = ORG_VARIANT_SUFFIXES.length ∧
    ORG_VARIANT_SUFFIXES.length = 14 ∧
    ((githubOrgCheck env name).available = true ↔
      ∃ r ∈ orgAllResults env name, r.available = true) ∧
    (githubOrgCheck env name).variants =
      some ((orgAllResults env name).filter (fun r => r.available)) := by
  refine ⟨orgBatchLoop_eq_map env name ORG_VARIANT_SUFFIXES, ?_, rfl, ?_, rfl⟩
  · simp [orgAllResults, orgBatchLoop_eq_map]
  · simp [githubOrgCheck, orgAllResults, List.length_pos,
      List.filter_eq_nil_iff]

/-- Outcome of one `fetchWithTimeout` call whose consumer reads only the
returned HTTP status: either a thrown error (network failure, or the abort of
the 10 second timeout) or a status code. -/
inductive StatusFetch
  | thrown (msg : String)
  | status (code : Nat)
deriving Repr, DecidableEq

/-- `pypiChecker.check` (src/checkers/pypi.ts): status 404 means available;
any other returned status is reported as taken with the project url; a thrown
fetch is caught and becomes an error result. -/
def pypiCheck (f : StatusFetch) (name : String) : CheckResult :=
  match f with
  | .thrown msg => createErrorResult "pypi" name msg
  | .status code =>
    let available := code == 404
    { name := name, platform := "pypi", available := available,
      url := if available then none
             else some ("https://pypi.org/project/" ++ name ++ "/") }

/-- One page fetch of the gitlab project search: thrown, or a response with
its ok flag, status code, and the (name, web url) project list parsed from
its json. -/
inductive GitlabPage
  | thrown (msg : String)
  | resp (ok : Bool) (status : Nat) (projects : List (String × String))
deriving Repr, DecidableEq

/-- The page loop of `gitlabChecker.check` (src/checkers/gitlab.ts) over
pages 1..3: a non-OK response returns a rate-limit error result on 429 and
otherwise breaks to the available result; an empty page breaks; an exact
case-insensitive name match returns a taken result; otherwise the next page
is fetched; falling off the loop yields the available result.  A thrown fetch
propagates as the exceptional outcome for the surrounding catch. -/
def gitlabLoop (env : Nat → GitlabPage) (name : String) :
    List Nat → Except String CheckResult
  | [] => .ok { name := name, platform := "gitlab", available := true }
  | page :: rest =>
    match env page with
    | .thrown msg => .error msg
    | .resp ok status projects =>
      if !ok then
        if status == 429 then
          .ok (createErrorResult "gitlab" name "Rate limited by GitLab")
        else
          .ok { name := name, platform := "gitlab", available := true }
      else if projects.isEmpty then
        .ok { name := name, platform := "gitlab", available := true }
      else
        match projects.find? (fun p => p.1.toLower == name.toLower) with
        | some p =>
          .ok { name := name, platform := "gitlab", available := false,
                url := some p.2 }
        | none => gitlabLoop env name rest

/-- `gitlabChecker.check`: the page loop wrapped in the try/catch that turns
every thrown error into an error result, so the checker itself never has an
exceptional outcome. -/
def gitlabCheck (env : Nat → GitlabPage) (name : String) : CheckResult :=
  match gitlabLoop env name [1, 2, 3] with
  | .ok r => r
  | .error msg => createErrorResult "gitlab" name msg

/-- C4 counterexample: an unexpected HTTP status (500) on the pypi lookup is
not captured in the error field: the checker reports the name as taken
(available false, error null), so not every unexpected-status failure mode
lands in `error` as the claim states. -/
theorem pypi_unexpected_status_not_error :
    (pypiCheck (.status 500) "foo").error = none ∧
    (pypiCheck (.status 500) "foo").available = false := by
  decide

/-- C4 (amended): every embedded checker call returns a CheckResult for every
environment outcome (the bodies are total and wrapped, so no exceptional
outcome escapes), and thrown failures (network error, timeout) are captured
in-band: pypi and gitlab record the message in the error field, as does the
github checker for non-rate-limit thrown errors on its authenticated path;
unexpected HTTP statuses, however, are not uniformly recorded in the error
field (pypi maps any non-404 to taken, gitlab maps non-OK non-429 to
available, and the github public path is optimistic). -/
theorem checkers_never_throw_inband (name msg : String) (st : GhState)
    (now : Nat) (genv : GhEnv)
    (hflag : st.usePublicApiOnly = false) (htok : genv.token = true)
    (hexn : genv.primary = PrimaryFetch.exn none msg) :
    (pypiCheck (.thrown msg) name).error = some msg ∧
    (gitlabCheck (fun _ => .thrown msg) name).error = some msg ∧
    (githubCheck st now genv name).1.error = some msg ∧
    (gitlabCheck (fun _ => .resp false 500 []) name).error = none ∧
    (gitlabCheck (fun _ => .resp false 500 []) name).available = true := by
  refine ⟨rfl, rfl, ?_, rfl, rfl⟩
  simp [githubCheck, shouldUsePublicApi, hflag, htok, hexn, createErrorResult]

/-- Witness for the amended C4 at a concrete environment. -/
theorem checkers_never_throw_inband_witness :
    (pypiCheck (.thrown "Network error") "foo").error = some "Network error" :=
  (checkers_never_throw_inband "foo" "Network error"
    { usePublicApiOnly := false, rateLimitResetTime := 0 } 0
    { token := true, primary := .exn none "Network error",
      publicRepo := .notOk 500 }
    rfl rfl rfl).1

/-- A judge score for one name (`NameScore` in src/judge.ts), numeric scores
as rationals. -/
structure NameScore where
  name : String
  typability : ℚ
  memorability : ℚ
  meaning : ℚ
  uniqueness : ℚ
  culturalRisk : ℚ
  overall : ℚ
  verdict : String
  weaknesses : String
deriving Repr, DecidableEq

/-- A generated name with its availability figures
(`NameWithAvailability` in src/find.ts). -/
structure NameWithAvailability where
  name : String
  rationale : String
  source : Option String := none
  availability : ℚ
  availableChecks : Nat
  totalChecks : Nat
deriving Repr, DecidableEq

/-- An accepted candidate (`ScoredCandidate` in src/find.ts). -/
structure ScoredCandidate where
  name : String
  rationale : String
  source : Option String := none
  availability : ℚ
  availableChecks : Nat
  totalChecks : Nat
  score : NameScore
deriving Repr, DecidableEq

/-- The candidate object pushed by the accept branch of the score loop of
`findNames` (src/find.ts). -/
def buildCandidate (q : NameWithAvailability) (s : NameScore) :
    ScoredCandidate :=
  { name := s.name, rationale := q.rationale, source := q.source,
    availability := q.availability, availableChecks := q.availableChecks,
    totalChecks := q.totalChecks, score := s }

/-- The body of the score loop of `findNames` (src/find.ts) for one score:
skip scores with no matching qualified name (continue), and push exactly when
the overall score reaches minScore and the verdict is in the accepted
list. -/
def scoreStep (minScore : ℚ) (verdicts : List String)
    (qualifiedNames : List NameWithAvailability) (score : NameScore) :
    Option ScoredCandidate :=
  match qualifiedNames.find? (fun n => n.name == score.name) with
  | none => none
  | some q =>
    let passesScore := decide (minScore ≤ score.overall)
    let passesVerdict := verdicts.contains score.verdict
    if passesScore && passesVerdict then some (buildCandidate q score)
    else none

/-- The whole score loop: the candidates appended to the session accumulator
this iteration, in order. -/
def processScores (minScore : ℚ) (verdicts : List String)
    (qualifiedNames : List NameWithAvailability) (scores : List NameScore) :
    List ScoredCandidate :=
  scores.filterMap (scoreStep minScore verdicts qualifiedNames)

/-- C8: a scored candidate whose name matches a qualified name of the
iteration is accepted (appended to the session accumulator) iff its overall
score reaches minScore and its verdict belongs to the accepted-verdicts set;
failing either condition it is not accepted. -/
theorem find_accept_iff (minScore : ℚ) (verdicts : List String)
    (qs : List NameWithAvailability) (s : NameScore)
    (q : NameWithAvailability)
    (h : qs.find? (fun n => n.name == s.name) = some q) :
    scoreStep minScore verdicts qs s =
      (if minScore ≤ s.overall ∧ s.verdict ∈ verdicts
       then some (buildCandidate q s) else none) ∧
    processScores minScore verdicts qs [s] =
      (if minScore ≤ s.overall ∧ s.verdict ∈ verdicts
       then [buildCandidate q s] else []) := by
  have hs : scoreStep minScore verdicts qs s =
      (if minScore ≤ s.overall ∧ s.verdict ∈ verdicts
       then some (buildCandidate q s) else none) := by
    simp only [scoreStep, h]
    by_cases h1 : minScore ≤ s.overall <;>
      by_cases h2 : s.verdict ∈ verdicts <;>
      simp [h1, h2, List.elem_iff]
  refine ⟨hs, ?_⟩
  simp only [processScores, List.filterMap, hs]
  split_ifs <;> rfl

/-- The qualified candidate used for the C8 witness (spec example). -/
def wQualified : NameWithAvailability :=
  { name := "kest", rationale := "short and sharp", source := none,
    availability := 1, availableChecks := 3, totalChecks := 3 }

/-- The judge score used for the C8 witness (spec example: overall 3.6,
verdict consider, against minScore 3.5). -/
def wScore : NameScore :=
  { name := "kest", typability := 4, memorability := 4, meaning := 3,
    uniqueness := 4, culturalRisk := 1, overall := 18 / 5,
    verdict := "consider", weaknesses := "" }

/-- Witness for C8: the spec example (minScore 3.5, verdicts strong and
consider, overall 3.6 with verdict consider) is accepted. -/
theorem find_accept_iff_witness :
    scoreStep (7 / 2) ["strong", "consider"] [wQualified] wScore =
      (if (7 / 2 : ℚ) ≤ wScore.overall ∧
          wScore.verdict ∈ ["strong", "consider"]
       then some (buildCandidate wQualified wScore) else none) :=
  (find_accept_iff (7 / 2) ["strong", "consider"] [wQualified] wScore
    wQualified (by decide)).1

/-- One iteration of the find loop as it affects the exclusion list
`allGeneratedNames` (src/find.ts): the whole generated batch (requested with
the current list as excludedNames) is appended immediately after generation,
before availability checking, filtering and judging.  The generation
collaborator is an oracle from the iteration index and the current exclusion
list to the batch of generated names. -/
def iterAppend (gen : Nat → List String → List String) (i : Nat)
    (all : List String) : List String :=
  all ++ gen i all

/-- The exclusion list after n further iterations of the find loop, starting
at iteration index i. -/
def exclusionsAfter (gen : Nat → List String → List String) :
    Nat → Nat → List String → List String
  | _, 0, all => all
  | i, n + 1, all => exclusionsAfter gen (i + 1) n (iterAppend gen i all)

/-- C9 counterexample: the find loop never deduplicates the exclusion list:
with a generation collaborator that returns the already-excluded name alpha,
one iteration leaves alpha in the list twice, so the list is not
duplicate-free as the claim states. -/
theorem exclusion_list_can_duplicate :
    exclusionsAfter (fun _ _ => ["alpha"]) 0 1 ["alpha"] =
      ["alpha", "alpha"] ∧
    ¬(exclusionsAfter (fun _ _ => ["alpha"]) 0 1 ["alpha"]).Nodup := by
  refine ⟨rfl, ?_⟩
  decide

/-- C9 (amended): across a session the exclusion list only grows — each
iteration appends its whole generated batch in the same iteration, before any
filtering or scoring, and the list is never reset — and it remains
duplicate-free provided every generation call returns pairwise-distinct names
none of which are already in the exclusion list it was given; the loop itself
performs no deduplication. -/
theorem exclusion_monotone_and_conditional_nodup
    (gen : Nat → List String → List String) (i n : Nat) (all : List String)
    (hnodup : all.Nodup)
    (hgen : ∀ j ex, (gen j ex).Nodup ∧ ∀ m ∈ gen j ex, m ∉ ex) :
    (∃ added, exclusionsAfter gen i n all = all ++ added) ∧
    (∀ m ∈ gen i all, m ∈ iterAppend gen i all) ∧
    (exclusionsAfter gen i n all).Nodup := by
  induction n generalizing i all with
  | zero =>
    refine ⟨⟨[], (List.append_nil all).symm⟩, ?_, hnodup⟩
    intro m hm
    simp [iterAppend, hm]
  | succ n ih =>
    have hstep : (iterAppend gen i all).Nodup := by
      refine List.Nodup.append hnodup (hgen i all).1 ?_
    -- disjointness: names of the old list never recur in the new batch
      intro a ha hb
      exact (hgen i all).2 a hb ha
    obtain ⟨⟨added, hadd⟩, _, hnd⟩ := ih (i + 1) (iterAppend gen i all) hstep
    refine ⟨⟨gen i all ++ added, ?_⟩, ?_, ?_⟩
    · rw [exclusionsAfter, hadd, iterAppend, List.append_assoc]
    · intro m hm
      simp [iterAppend, hm]
    · rw [exclusionsAfter]
      exact hnd

/-- Witness for the amended C9 with a concrete compliant generator. -/
theorem exclusion_monotone_witness :
    (∃ added, exclusionsAfter (fun _ _ => []) 0 2 ["alpha"] =
      ["alpha"] ++ added) ∧
    (∀ m ∈ (fun (_ : Nat) (_ : List String) => ([] : List String)) 0 ["alpha"],
      m ∈ iterAppend (fun _ _ => []) 0 ["alpha"]) ∧
    (exclusionsAfter (fun _ _ => []) 0 2 ["alpha"]).Nodup :=
  exclusion_monotone_and_conditional_nodup (fun _ _ => []) 0 2 ["alpha"]
    (by decide) (fun _ _ => ⟨List.nodup_nil, by simp⟩)

end ProjectNameGen
